import Mathlib

/-!
Verification of the hyperapi gateway request pipeline

Shallow embedding of the parts of `micross/hyperapi` that the claims
C1–C10 are about:

* `src/auth/jwt.rs` — `JWTAuthProvider` (token extraction, kid
  extraction, token verification, the LRU token cache, `identify_client`
  and `update_config`);
* `src/middleware/proxy.rs` — `ProxyHandler` (`alter_request` URI
  rewriting, the in-flight gauge and the timeout race in `call`);
* `src/middleware/upstream.rs` — `UpstreamMiddleware` (dispatch table,
  `config_update`, `build_service` and the hash steer closure).

Rust strings are `List Char`, header byte values are `List Nat`, hash
maps are association lists (`lookupA`/`insertA`/`removeA`), and
`Result`/panic become `Except`/`Option` (with `none` standing for a Rust
panic).  External library functions (the `http` crate's
`HeaderValue::to_str`, `jsonwebtoken`'s `decode_header`/`decode`, the
std `DefaultHasher`) are parameters of the embedded functions; concrete
instantiations used in witnesses model their documented behaviour.

Data types whose Rust definitions live in modules not present here
(`config/protocol.rs`, `auth/authenticator.rs`,
`middleware/middleware.rs`) are modelled from the spec, as marked.
-/

namespace HyperApi

/-! ## Association lists (model of `std::collections::HashMap` lookup) -/

/-- Lookup of the first binding of key `k` in an association list. -/
def lookupA {β : Type} (k : String) : List (String × β) → Option β
  | [] => none
  | (k', v) :: rest => if k' = k then some v else lookupA k rest

/-- Remove the binding of key `k` from an association list.  A
`HashMap` (and an `LruCache`) holds at most one binding per key, so
dropping every pair with key `k` is the removal of that binding. -/
def removeA {β : Type} (k : String) (l : List (String × β)) :
    List (String × β) :=
  l.filter (fun e => e.1 != k)

/-- Insert-or-overwrite a binding, as `HashMap::insert` does. -/
def insertA {β : Type} (k : String) (v : β) (l : List (String × β)) :
    List (String × β) :=
  (k, v) :: removeA k l

/-- Rust `str::split(char)` over the character list: separators are not
kept, adjacent separators produce empty segments, and the empty string
splits into one empty segment. -/
def splitChar (sep : Char) : List Char → List (List Char)
  | [] => [[]]
  | c :: rest =>
      let r := splitChar sep rest
      if c = sep then [] :: r
      else
        match r with
        | s :: tail => (c :: s) :: tail
        | [] => [[c]]

/-! ## Data model

Modelled from the spec: `config/protocol.rs` (the `ClientInfo`, `SLA`,
`ServiceInfo`, `Upstream` and `ConfigUpdate` types) is not under `src/`;
the field sets follow §3 DATA MODEL and the uses in `jwt.rs`,
`proxy.rs` and `upstream.rs`. -/

/-- Modelled from the spec: per-(client, service) QoS record (`SLA` in
`config/protocol.rs`); downstream code treats it as an opaque value
type, so it is a wrapped tag here. -/
structure SLA where
  tag : String
  deriving DecidableEq, Repr

/-- Modelled from the spec: identity record of one API consumer
(`ClientInfo` in `config/protocol.rs`). -/
structure ClientInfo where
  client_id : String
  app_key : String
  pub_key : String
  services : List (String × SLA)
  deriving DecidableEq, Repr

/-- Modelled from the spec: one backend endpoint (`Upstream` in
`config/protocol.rs`).  Durations are in seconds, as in the config. -/
structure Upstream where
  id : String
  target : List Char
  version : String
  weight : Nat
  max_conn : Nat
  error_threshold : Nat
  error_reset : Nat
  retry_delay : Nat
  deriving DecidableEq, Repr

/-- Modelled from the spec: configuration of one logical service
(`ServiceInfo` in `config/protocol.rs`). -/
structure ServiceInfo where
  service_id : String
  timeout : Nat
  load_balance : String
  upstreams : List Upstream
  deriving DecidableEq, Repr

/-- Modelled from the spec: the tagged config-update variant
(`ConfigUpdate` in `config/protocol.rs`). -/
inductive ConfigUpdate where
  | ClientUpdate (client : ClientInfo)
  | ClientRemove (cid : String)
  | ServiceUpdate (conf : ServiceInfo)
  | ServiceRemove (sid : String)
  deriving DecidableEq, Repr

/-- Modelled from the spec: the auth error enumeration
(`GatewayAuthError` in `auth/authenticator.rs`), per §4.2. -/
inductive GatewayAuthError where
  | TokenNotFound
  | InvalidToken
  | InvalidIssuer
  | UnknownClient
  | InvalidSLA
  deriving DecidableEq, Repr

/-- Modelled from the spec: the Auth stage output (`AuthResult` in
`auth/authenticator.rs`): `{ client_id, sla }`. -/
structure AuthResult where
  client_id : String
  sla : SLA
  deriving DecidableEq, Repr

/-! ## LRU token cache

Model of the `lru` crate's `LruCache<String, String>` as used by
`jwt.rs`: a capacity plus an ordered entry list, most recently used
first.  `get` promotes a hit to the front and leaves a miss untouched;
`put` inserts or updates at the front and evicts from the tail beyond
capacity. -/

structure LruCache where
  cap : Nat
  entries : List (String × String)
  deriving DecidableEq, Repr

namespace LruCache

/-- Model of `LruCache::get`: returns the cached value and the cache with the
hit entry promoted to most-recently-used. -/
def get (c : LruCache) (k : String) : Option String × LruCache :=
  match lookupA k c.entries with
  | some v => (some v, { c with entries := (k, v) :: removeA k c.entries })
  | none => (none, c)

/-- Model of `LruCache::put`: insert or update `k ↦ v` as most-recently-used,
dropping the least-recently-used entry beyond capacity. -/
def put (c : LruCache) (k v : String) : LruCache :=
  { c with entries := ((k, v) :: removeA k c.entries).take c.cap }

end LruCache

/-! ## JWT auth provider (`src/auth/jwt.rs`) -/

/-- Request head: the only part `jwt.rs` reads is
`head.headers.get(AUTHORIZATION)`, a raw header byte value. -/
structure Parts where
  authorization : Option (List Nat)
  deriving DecidableEq, Repr

/-- The decoded JWT header as far as `extract_kid` reads it: the
optional `kid` claim. -/
structure JwtHeader where
  kid : Option String
  deriving DecidableEq, Repr

/-- Error kinds of the `jsonwebtoken` crate that `verify_token`
distinguishes; every other kind is collapsed into `Other`. -/
inductive JwtErrorKind where
  | InvalidToken
  | InvalidIssuer
  | Other
  deriving DecidableEq, Repr

structure JWTAuthProvider where
  apps : List (String × ClientInfo)
  token_cache : LruCache
  deriving DecidableEq, Repr

namespace JWTAuthProvider

/-- Constructor `JWTAuthProvider::new`: empty registry, LRU capacity 1024. -/
def new : JWTAuthProvider :=
  { apps := [], token_cache := { cap := 1024, entries := [] } }

/-- Embeds `JWTAuthProvider::update_config` (`jwt.rs` lines 17–28). -/
def update_config (p : JWTAuthProvider) : ConfigUpdate → JWTAuthProvider
  | .ClientUpdate client =>
      { p with apps := insertA client.client_id client p.apps }
  | .ClientRemove cid => { p with apps := removeA cid p.apps }
  | _ => p

/-- Embeds `JWTAuthProvider::extract_token` (`jwt.rs` lines 88–97).
`toStr` stands for `http::HeaderValue::to_str`; `none` from it makes
the Rust `token.to_str().unwrap()` panic, modelled by the outer `none`.
A present header is split on `' '` and the second segment is taken,
defaulting to the empty string (`segs.get(1).unwrap_or(&"")`). -/
def extract_token (toStr : List Nat → Option String) (head : Parts) :
    Option (Except GatewayAuthError String) :=
  match head.authorization with
  | some value =>
      match toStr value with
      | none => none
      | some s => some (.ok (String.mk ((splitChar ' ' s.toList).getD 1 [])))
  | none => some (.error .TokenNotFound)

/-- Embeds `JWTAuthProvider::extract_kid` (`jwt.rs` lines 99–107).
`dh` stands for `jsonwebtoken::decode_header`; an error from it makes
the Rust `decode_header(token).unwrap()` panic, modelled by the outer
`none`. -/
def extract_kid (dh : String → Option JwtHeader) (token : String) :
    Option (Except GatewayAuthError String) :=
  match dh token with
  | none => none
  | some header =>
      match header.kid with
      | some kid => some (.ok kid)
      | none => some (.error .InvalidToken)

/-- Embeds `JWTAuthProvider::verify_token` (`jwt.rs` lines 109–120).
`decode` stands for `jsonwebtoken::decode::<JwtClaims>` against
`DecodingKey::from_secret(pubkey)` with HS256 validation; the error
kinds are mapped as in the source (`InvalidIssuer` passes through,
everything else becomes `InvalidToken`). -/
def verify_token (decode : String → String → Except JwtErrorKind Unit)
    (token pubkey : String) : Except GatewayAuthError Unit :=
  match decode token pubkey with
  | .ok _ => .ok ()
  | .error .InvalidToken => .error .InvalidToken
  | .error .InvalidIssuer => .error .InvalidIssuer
  | .error .Other => .error .InvalidToken

/-- Outcome of one `identify_client` call: the returned `Result`, the
token cache after the call, and how many cryptographic verifications
(`verify_token` calls) were performed. -/
structure IdentifyOutcome where
  result : Except GatewayAuthError (Parts × AuthResult)
  cache : LruCache
  verifies : Nat
  deriving Repr

/-- Embeds `JWTAuthProvider::identify_client` (`jwt.rs` lines 30–77), with the
cache mutation made explicit.  The outer `none` is a panic escaping
from `extract_token` or `extract_kid`. -/
def identify_client (toStr : List Nat → Option String)
    (dh : String → Option JwtHeader)
    (decode : String → String → Except JwtErrorKind Unit)
    (p : JWTAuthProvider) (head : Parts) (service_id : String) :
    Option IdentifyOutcome :=
  match extract_token toStr head with
  | none => none
  | some (.error e) => some ⟨.error e, p.token_cache, 0⟩
  | some (.ok token) =>
      match extract_kid dh token with
      | none => none
      | some (.error e) => some ⟨.error e, p.token_cache, 0⟩
      | some (.ok client_id) =>
          match lookupA client_id p.apps with
          | none => some ⟨.error .UnknownClient, p.token_cache, 0⟩
          | some client =>
              match lookupA service_id client.services with
              | none => some ⟨.error .InvalidSLA, p.token_cache, 0⟩
              | some sla =>
                  match p.token_cache.get token with
                  | (some cached_key, cache') =>
                      if cached_key = client.app_key then
                        some ⟨.ok (head, ⟨client.client_id, sla⟩), cache', 0⟩
                      else
                        some ⟨.error .InvalidToken, cache', 0⟩
                  | (none, cache') =>
                      match verify_token decode token client.pub_key with
                      | .error e => some ⟨.error e, cache', 1⟩
                      | .ok _ =>
                          some ⟨.ok (head, ⟨client.client_id, sla⟩),
                            cache'.put token client.app_key, 1⟩

end JWTAuthProvider

/-! ## Proxy handler (`src/middleware/proxy.rs`) -/

/-- Modelled from the spec: the middleware error enumeration
(`GatewayError` in `middleware/middleware.rs`), per the §7 error
taxonomy; string payloads follow the constructors used in
`proxy.rs`/`upstream.rs`. -/
inductive GatewayError where
  | ServiceNotFound (msg : String)
  | RateLimited
  | Overloaded
  | ServiceNotReady (msg : String)
  | CircuitOpen
  | TimeoutError
  | UpstreamError (msg : String)
  deriving DecidableEq, Repr

/-- The `Box<dyn Error>` escaping `ProxyHandler::call`: either a
`GatewayError` or a transport-level `hyper` error. -/
inductive BoxedError where
  | gw (e : GatewayError)
  | transport (msg : String)
  deriving DecidableEq, Repr

/-- The part of `hyper::Request` the embedded code reads: the URI's
path-and-query (absent for URIs without one) and the raw request
headers. -/
structure Request where
  pathAndQuery : Option (List Char)
  headers : List (String × List Nat)
  deriving DecidableEq, Repr

/-- The part of `hyper::Response` the embedded code touches: response
headers (appended to by the proxy) and an opaque body. -/
structure Response where
  headers : List (String × String)
  body : String
  deriving DecidableEq, Repr

/-- Rust `str::trim_end_matches` for a single pattern character. -/
def trimEndMatches (c : Char) (s : List Char) : List Char :=
  (s.reverse.dropWhile (· = c)).reverse

/-- Rust `str::strip_prefix("/")`. -/
def stripPrefixSlash : List Char → Option (List Char)
  | [] => none
  | c :: rest => if c = '/' then some rest else none

/-- Rust `str::find(char)`: index of the first occurrence. -/
def findChar (c : Char) : List Char → Option Nat
  | [] => none
  | x :: xs => if x = c then some 0 else (findChar c xs).map (· + 1)

/-- Embeds `ProxyHandler::alter_request` (`proxy.rs` lines 69–89), restricted
to the URI it produces: take the request's path-and-query (`"/"` when
absent), strip the leading `'/'` (falling back to `"/"`), keep
everything from the first remaining `'/'` on (empty when there is
none), and append that to the endpoint with trailing `'/'` trimmed. -/
def alter_request_uri (pq : Option (List Char)) (endpoint : List Char) :
    List Char :=
  let path_and_query := pq.getD ['/']
  let path := (stripPrefixSlash path_and_query).getD ['/']
  let path_left :=
    match findChar '/' path with
    | some offset => path.drop offset
    | none => []
  trimEndMatches '/' endpoint ++ path_left

/-- The upstream URI as the spec's sentence states it (for comparison
with `alter_request_uri`): `Upstream.target` with any trailing `'/'`
trimmed, concatenated with the path suffix following `/S` (possibly
empty), with the query string of the original request preserved. -/
def spec_upstream_uri (target suffix query : List Char) : List Char :=
  trimEndMatches '/' target ++ suffix ++ query

structure ProxyHandler where
  service_id : String
  upstream_id : String
  upstream : List Char
  version : String
  timeout : Nat
  deriving DecidableEq, Repr

namespace ProxyHandler

/-- Embeds `ProxyHandler::new` (`proxy.rs` lines 35–67), restricted to the
fields `call` reads; the TLS connector and `hyper` client construction
are external I/O.  `timeout` is the per-service `conf.timeout` in
seconds (`Duration::from_secs`). -/
def new (service_id : String) (u : Upstream) (timeout : Nat) :
    ProxyHandler :=
  { service_id := service_id
    upstream_id := u.id
    upstream := u.target
    version := u.version
    timeout := timeout }

/-- One operation on the `gateway_requests_in_progress` gauge vector,
with its `(service, upstream, version)` label values. -/
inductive GaugeEvent where
  | inc (labels : String × String × String)
  | dec (labels : String × String × String)
  deriving DecidableEq, Repr

/-- Which branch of the `tokio::select!` in `call` completes first:
the upstream response future (with its result) or the timeout sleep.
`SleepFirst` carries no response — the still-pending upstream future is
dropped by the select. -/
inductive RaceOutcome where
  | UpstreamFirst (resp : Except String Response)
  | SleepFirst
  deriving Repr

/-- What one `call` did: the URI handed to the upstream HTTP client,
the gauge operations performed, and the value of the returned future. -/
structure CallResult where
  forwarded_uri : List Char
  events : List GaugeEvent
  result : Except BoxedError Response
  deriving Repr

/-- Embeds `ProxyHandler::call` (`proxy.rs` lines 102–136) as a function of
the race outcome.  The gauge is incremented before the select.  On
`SleepFirst` the select yields `Err(TimeoutError)`, the gauge is
decremented, and `result?` propagates the error.  On an upstream
transport error, the `?` in the select arm `Ok(resp?)` returns from the
async block at once, so no decrement happens.  On a response, the gauge
is decremented and `X-UPSTREAM-ID`/`X-UPSTREAM-VERSION` are appended. -/
def call (h : ProxyHandler) (req : Request) (outcome : RaceOutcome) :
    CallResult :=
  let uri := alter_request_uri req.pathAndQuery h.upstream
  let labels := (h.service_id, h.upstream_id, h.version)
  match outcome with
  | .SleepFirst =>
      { forwarded_uri := uri
        events := [.inc labels, .dec labels]
        result := .error (.gw .TimeoutError) }
  | .UpstreamFirst (.error e) =>
      { forwarded_uri := uri
        events := [.inc labels]
        result := .error (.transport e) }
  | .UpstreamFirst (.ok resp) =>
      { forwarded_uri := uri
        events := [.inc labels, .dec labels]
        result := .ok { resp with
          headers := resp.headers ++
            [("X-UPSTREAM-ID", h.upstream_id),
             ("X-UPSTREAM-VERSION", h.version)] } }

/-- Number of `inc` events on a given label triple. -/
def countInc (labels : String × String × String) (l : List GaugeEvent) :
    Nat :=
  (l.filter (fun e => e = .inc labels)).length

/-- Number of `dec` events on a given label triple. -/
def countDec (labels : String × String × String) (l : List GaugeEvent) :
    Nat :=
  (l.filter (fun e => e = .dec labels)).length

end ProxyHandler

/-! ## Upstream middleware (`src/middleware/upstream.rs`) -/

/-- The shape of the service stack `build_service` constructs.  Each
variant keeps the upstreams of the per-upstream inner stacks
(`CircuitBreaker(LoadShed(ConcurrencyLimit(ProxyHandler)))`) in
configuration order; the tower combinator wrappers carry no routing
state of their own. -/
inductive BuiltService where
  | single (u : Upstream)
  | hashSteer (us : List Upstream)
  | p2cPeakEwma (us : List Upstream)
  | p2cPendingRequests (us : List Upstream)
  | weightedRandom (us : List Upstream)
  deriving DecidableEq, Repr

/-- The default hashed bytes when `x-lb-hash` is absent:
`HeaderValue::from_static("empty").as_bytes()`. -/
def emptyHashBytes : List Nat := "empty".toList.map Char.toNat

/-- The `Steer` closure of the `"hash"` branch of `build_service`
(`upstream.rs` lines 134–145): hash the bytes of `x-lb-hash`
(defaulting to `"empty"`), modulo the number of inner services.
`hashBytes` stands for `DefaultHasher`/`Hash::hash_slice` followed by
`finish`. -/
def steerIndex (hashBytes : List Nat → Nat) (req : Request)
    (total : Nat) : Nat :=
  let bytes := (lookupA "x-lb-hash" req.headers).getD emptyHashBytes
  hashBytes bytes % total

/-- The upstream a `hashSteer` stack routes a request to: `Steer` calls
the inner service at the closure's index. -/
def steerRoute (hashBytes : List Nat → Nat) (us : List Upstream)
    (req : Request) : Option Upstream :=
  us[steerIndex hashBytes req us.length]?

/-- Embeds `UpstreamMiddleware::build_service` (`upstream.rs` lines 88–171):
`none` models the `panic!("Invalid upstream config")` on zero
upstreams; one upstream gives the single inner stack; otherwise
`load_balance` selects the balancer over the inner stacks built from
`conf.upstreams` in order. -/
def build_service (conf : ServiceInfo) : Option BuiltService :=
  match conf.upstreams with
  | [] => none
  | [u] => some (.single u)
  | us =>
      if conf.load_balance = "hash" then some (.hashSteer us)
      else if conf.load_balance = "load" then some (.p2cPeakEwma us)
      else if conf.load_balance = "conn" then some (.p2cPendingRequests us)
      else some (.weightedRandom us)

/-- Dispatch table of `UpstreamMiddleware`: `worker_queues` maps a
`service_id` to the installed sender, identified here by the
`ServiceInfo` the receiving worker was spawned with. -/
structure UpstreamMiddleware where
  worker_queues : List (String × ServiceInfo)
  deriving DecidableEq, Repr

namespace UpstreamMiddleware

/-- Side effect of `config_update`: spawning a `service_worker` task
for a configuration. -/
inductive UpdateEffect where
  | SpawnWorker (conf : ServiceInfo)
  deriving DecidableEq, Repr

/-- Embeds `UpstreamMiddleware::config_update` (`upstream.rs` lines 206–225):
a `ServiceUpdate` with at least one upstream spawns a worker and
installs its sender; with zero upstreams it removes any existing entry
and spawns nothing; `ServiceRemove` removes the entry; other variants
are ignored. -/
def config_update (m : UpstreamMiddleware) (u : ConfigUpdate) :
    UpstreamMiddleware × List UpdateEffect :=
  match u with
  | .ServiceUpdate conf =>
      if conf.upstreams.length > 0 then
        ({ worker_queues := insertA conf.service_id conf m.worker_queues },
         [.SpawnWorker conf])
      else
        ({ worker_queues := removeA conf.service_id m.worker_queues }, [])
  | .ServiceRemove sid =>
      ({ worker_queues := removeA sid m.worker_queues }, [])
  | _ => (m, [])

/-- What `UpstreamMiddleware::request` does with a task. -/
inductive RequestAction where
  | EnqueueTo (conf : ServiceInfo)
  | Fail (e : GatewayError)
  deriving DecidableEq, Repr

/-- Embeds `UpstreamMiddleware::request` (`upstream.rs` lines 187–200): a
task for a known service is sent into that service's worker queue;
otherwise the result sink receives `ServiceNotFound`. -/
def request (m : UpstreamMiddleware) (service_id : String) :
    RequestAction :=
  match lookupA service_id m.worker_queues with
  | some conf => .EnqueueTo conf
  | none => .Fail (.ServiceNotFound "Invalid Service ID")

end UpstreamMiddleware

/-! ## Concrete models of external collaborators, for witnesses

The theorems below are stated over arbitrary `toStr`, `dh`, `decode`
and `hashBytes` parameters; these small instantiations model the
documented behaviour of the external crates at the concrete inputs the
witnesses use. -/

/-- Witness model of `http::HeaderValue::to_str`: defined exactly on
visible-ASCII byte strings. -/
def asciiToStr (bytes : List Nat) : Option String :=
  if bytes.all (fun b => 32 ≤ b && b < 127) then
    some (String.mk (bytes.map Char.ofNat))
  else none

/-- Witness model of `jsonwebtoken::decode_header`: a compact JWT has
dot-separated segments, so decoding fails on any token without a dot —
in particular on the empty token; on other tokens this model reports a
fixed `kid`. -/
def dhModel (token : String) : Option JwtHeader :=
  if token.toList.contains '.' then some { kid := some "client1" } else none

/-- Witness model of a `jsonwebtoken::decode` call that accepts every
token. -/
def decodeOk : String → String → Except JwtErrorKind Unit :=
  fun _ _ => .ok ()

/-- Byte string of an ASCII header value. -/
def strBytes (s : String) : List Nat := s.toList.map Char.toNat

/-! ### Concrete fixtures used by witnesses and counterexamples -/

def clientW : ClientInfo :=
  { client_id := "client1", app_key := "K1", pub_key := "pub"
    services := [("svc1", ⟨"gold"⟩)] }

/-- Client `clientW` after an `app_key` rotation from `"K1"` to `"K2"`. -/
def clientW2 : ClientInfo :=
  { client_id := "client1", app_key := "K2", pub_key := "pub"
    services := [("svc1", ⟨"gold"⟩)] }

def headW : Parts := ⟨some (strBytes "Bearer a.b.c")⟩

def pW : JWTAuthProvider :=
  { apps := [("client1", clientW)], token_cache := ⟨1024, []⟩ }

def pCachedW : JWTAuthProvider :=
  { apps := [("client1", clientW)]
    token_cache := ⟨1024, [("a.b.c", "K1")]⟩ }

def uW : Upstream :=
  { id := "u1", target := "http://u1/".toList, version := "v1"
    weight := 1, max_conn := 10, error_threshold := 3, error_reset := 30
    retry_delay := 2 }

def hProxyW : ProxyHandler := ProxyHandler.new "svc1" uW 5

def reqW : Request := ⟨some "/svc1/hello?x=1".toList, []⟩

def respW : Response := ⟨[("content-type", "text/plain")], "hello"⟩

def mW : UpstreamMiddleware :=
  ⟨[("svc1", ⟨"svc1", 5, "weight", [uW]⟩)]⟩

/-! ## Association-list and LRU lemmas -/

theorem removeA_cons {β : Type} (k : String) (e : String × β)
    (l : List (String × β)) :
    removeA k (e :: l) =
      if e.1 = k then removeA k l else e :: removeA k l := by
  by_cases h : e.1 = k <;> simp [removeA, List.filter_cons, h]

theorem lookupA_removeA_self {β : Type} (k : String)
    (l : List (String × β)) : lookupA k (removeA k l) = none := by
  induction l with
  | nil => rfl
  | cons e rest ih =>
      rw [removeA_cons]
      by_cases h : e.1 = k
      · simpa [h] using ih
      · simpa [lookupA, h] using ih

theorem lookupA_removeA_ne {β : Type} (k k' : String)
    (l : List (String × β)) (h : k' ≠ k) :
    lookupA k' (removeA k l) = lookupA k' l := by
  induction l with
  | nil => rfl
  | cons e rest ih =>
      rw [removeA_cons]
      by_cases he : e.1 = k
      · have hne : e.1 ≠ k' := fun hbad => h (hbad.symm.trans he)
        rw [if_pos he, ih]
        simp [lookupA, hne]
      · rw [if_neg he]
        simp [lookupA, ih]

theorem lookupA_insertA_self {β : Type} (k : String) (v : β)
    (l : List (String × β)) : lookupA k (insertA k v l) = some v := by
  simp [insertA, lookupA]

theorem lookupA_insertA_ne {β : Type} (k k' : String) (v : β)
    (l : List (String × β)) (h : k' ≠ k) :
    lookupA k' (insertA k v l) = lookupA k' l := by
  have : k ≠ k' := fun hk => h hk.symm
  simp [insertA, lookupA, this, lookupA_removeA_ne k k' l h]

theorem removeA_eq_self {β : Type} (k : String) (l : List (String × β))
    (h : ∀ e ∈ l, e.1 ≠ k) : removeA k l = l := by
  simp only [removeA]
  exact List.filter_eq_self.mpr (fun a ha => by simpa using h a ha)

theorem removeA_key_free {β : Type} (k : String) (l : List (String × β)) :
    ∀ e ∈ removeA k l, e.1 ≠ k := by
  intro e he
  simp only [removeA, List.mem_filter] at he
  simpa using he.2

theorem removeA_idem {β : Type} (k : String) (l : List (String × β)) :
    removeA k (removeA k l) = removeA k l :=
  removeA_eq_self k _ (removeA_key_free k l)

theorem removeA_take {β : Type} (k : String) (l : List (String × β))
    (n : Nat) : removeA k ((removeA k l).take n) = (removeA k l).take n :=
  removeA_eq_self k _ (fun e he => removeA_key_free k l e (List.take_subset n _ he))

/-- After a `put` into a cache of positive capacity, the key is
bound. -/
theorem lookupA_put_self (c : LruCache) (k v : String)
    (hcap : 1 ≤ c.cap) :
    lookupA k (c.put k v).entries = some v := by
  obtain ⟨cap, entries⟩ := c
  cases cap with
  | zero => simp at hcap
  | succ n => simp [LruCache.put, lookupA, List.take_succ_cons]

/-- Reading `LruCache.get` on a cache whose most-recently-used entry is
`(k, v)`, with no stale `k` binding behind it, is a hit on `v` that
leaves the cache unchanged. -/
theorem LruCache.get_front (cap : Nat) (k v : String)
    (l : List (String × String)) (hl : removeA k l = l) :
    LruCache.get ⟨cap, (k, v) :: l⟩ k = (some v, ⟨cap, (k, v) :: l⟩) := by
  simp [LruCache.get, lookupA, removeA_cons, hl]

/-- Variant of `LruCache.get_front` stated through the entry list. -/
theorem LruCache.get_front' (c : LruCache) (k v : String)
    (rest : List (String × String)) (hent : c.entries = (k, v) :: rest)
    (hrest : removeA k rest = rest) :
    c.get k = (some v, c) := by
  obtain ⟨cap, entries⟩ := c
  simp only at hent
  subst hent
  exact LruCache.get_front cap k v rest hrest

/-! ## Claim theorems -/

/-! ### C1 helper lemmas about `findChar` -/

theorem findChar_eq_none (c : Char) (l : List Char) (h : c ∉ l) :
    findChar c l = none := by
  induction l with
  | nil => rfl
  | cons x xs ih =>
      simp only [List.mem_cons, not_or] at h
      have hx : ¬x = c := fun hb => h.1 hb.symm
      simp [findChar, hx, ih h.2]

theorem findChar_append (c : Char) (S r : List Char) (hS : c ∉ S) :
    findChar c (S ++ c :: r) = some S.length := by
  induction S with
  | nil => simp [findChar]
  | cons x xs ih =>
      simp only [List.mem_cons, not_or] at hS
      have hx : ¬x = c := fun hb => hS.1 hb.symm
      simp [findChar, hx, ih hS.2]

/-- C1 counterexample: for the request `/svc1?x=1` (service prefix
`svc1`, empty path suffix, query `?x=1`) against target `http://u1/`,
`alter_request` hands the upstream `http://u1` — the query string is
dropped, while the claim's URI (suffix and query preserved) would be
`http://u1?x=1`. -/
theorem c1_counterexample :
    alter_request_uri (some "/svc1?x=1".toList) "http://u1/".toList =
      "http://u1".toList ∧
    spec_upstream_uri "http://u1/".toList [] "?x=1".toList =
      "http://u1?x=1".toList ∧
    alter_request_uri (some "/svc1?x=1".toList) "http://u1/".toList ≠
      spec_upstream_uri "http://u1/".toList [] "?x=1".toList := by
  refine ⟨rfl, rfl, ?_⟩
  decide

/-- C1 (amended): for a request with path `/S⟨suffix⟩` and query
`⟨query⟩` (the service segment and the query free of `'/'`), the URI
given to the upstream client is `target` with trailing `'/'` trimmed
concatenated with the suffix and the query when the path extends
beyond `/S`; when the path has no suffix the URI is exactly the
trimmed target and the query string is dropped. -/
theorem c1_amended_rewrite (target S suffix query : List Char)
    (hS : '/' ∉ S) (hq : '/' ∉ query)
    (hsuf : suffix = [] ∨ ∃ r, suffix = '/' :: r) :
    alter_request_uri (some ('/' :: (S ++ suffix ++ query))) target =
      trimEndMatches '/' target ++
        (if suffix = [] then [] else suffix ++ query) := by
  rcases hsuf with rfl | ⟨r, rfl⟩
  · have hnone : findChar '/' (S ++ query) = none := by
      apply findChar_eq_none
      simp only [List.mem_append]
      exact fun h => h.elim hS hq
    simp [alter_request_uri, stripPrefixSlash, hnone]
  · have hfind : findChar '/' (S ++ '/' :: (r ++ query)) = some S.length :=
      findChar_append '/' S (r ++ query) hS
    have hdrop :
        (S ++ '/' :: (r ++ query)).drop S.length = '/' :: (r ++ query) :=
      List.drop_left S ('/' :: (r ++ query))
    simp [alter_request_uri, stripPrefixSlash, hfind, hdrop]

/-- Witness for C1 (amended): the rewrite of `GET /svc1/hello?x=1`
against target `http://u1/` is `http://u1/hello?x=1`, and of
`GET /svc1` it is `http://u1`. -/
theorem c1_amended_witness :
    alter_request_uri (some "/svc1/hello?x=1".toList) "http://u1/".toList =
      "http://u1/hello?x=1".toList ∧
    alter_request_uri (some "/svc1".toList) "http://u1/".toList =
      "http://u1".toList := by
  constructor
  · exact (c1_amended_rewrite "http://u1/".toList "svc1".toList
      "/hello".toList "?x=1".toList (by decide) (by decide)
      (Or.inr ⟨"hello".toList, rfl⟩)).trans (by decide)
  · exact (c1_amended_rewrite "http://u1/".toList "svc1".toList
      [] [] (by decide) (by decide) (Or.inl rfl)).trans (by decide)

/-- Behaviour of `identify_client` once token, kid, client and SLA
have been resolved: it reduces to the cache branch (`jwt.rs` lines
46–77). -/
theorem identify_client_eq (toStr : List Nat → Option String)
    (dh : String → Option JwtHeader)
    (decode : String → String → Except JwtErrorKind Unit)
    (p : JWTAuthProvider) (head : Parts) (sid token cid : String)
    (client : ClientInfo) (sla : SLA)
    (ht : JWTAuthProvider.extract_token toStr head = some (.ok token))
    (hk : JWTAuthProvider.extract_kid dh token = some (.ok cid))
    (hc : lookupA cid p.apps = some client)
    (hs : lookupA sid client.services = some sla) :
    JWTAuthProvider.identify_client toStr dh decode p head sid =
      match p.token_cache.get token with
      | (some cached_key, cache') =>
          if cached_key = client.app_key then
            some ⟨.ok (head, ⟨client.client_id, sla⟩), cache', 0⟩
          else some ⟨.error .InvalidToken, cache', 0⟩
      | (none, cache') =>
          match JWTAuthProvider.verify_token decode token client.pub_key with
          | .error e => some ⟨.error e, cache', 1⟩
          | .ok _ =>
              some ⟨.ok (head, ⟨client.client_id, sla⟩),
                cache'.put token client.app_key, 1⟩ := by
  simp only [JWTAuthProvider.identify_client, ht, hk, hc, hs]

/-- C3: the cache branch decides authentication: a cache hit whose
value equals the client's current `app_key` accepts with no
cryptographic verification; a hit with a different value fails with
`InvalidToken`; a miss verifies cryptographically and on success
inserts `(token → app_key)`; hence a `ClientUpdate` that rotates
`app_key` makes every previously cached token fail with
`InvalidToken`. -/
theorem c3_cache_decides_and_rotation_invalidates
    (toStr : List Nat → Option String) (dh : String → Option JwtHeader)
    (decode : String → String → Except JwtErrorKind Unit)
    (p : JWTAuthProvider) (head : Parts) (sid token cid : String)
    (ht : JWTAuthProvider.extract_token toStr head = some (.ok token))
    (hk : JWTAuthProvider.extract_kid dh token = some (.ok cid)) :
    (∀ client sla cache',
      lookupA cid p.apps = some client →
      lookupA sid client.services = some sla →
      p.token_cache.get token = (some client.app_key, cache') →
      JWTAuthProvider.identify_client toStr dh decode p head sid =
        some ⟨.ok (head, ⟨client.client_id, sla⟩), cache', 0⟩) ∧
    (∀ client sla k cache',
      lookupA cid p.apps = some client →
      lookupA sid client.services = some sla →
      p.token_cache.get token = (some k, cache') →
      k ≠ client.app_key →
      JWTAuthProvider.identify_client toStr dh decode p head sid =
        some ⟨.error .InvalidToken, cache', 0⟩) ∧
    (∀ client sla cache',
      lookupA cid p.apps = some client →
      lookupA sid client.services = some sla →
      p.token_cache.get token = (none, cache') →
      JWTAuthProvider.verify_token decode token client.pub_key = .ok () →
      JWTAuthProvider.identify_client toStr dh decode p head sid =
        some ⟨.ok (head, ⟨client.client_id, sla⟩),
          cache'.put token client.app_key, 1⟩ ∧
      (1 ≤ cache'.cap →
        lookupA token (cache'.put token client.app_key).entries =
          some client.app_key)) ∧
    ∀ c2 sla2 k cache',
      c2.client_id = cid →
      lookupA sid c2.services = some sla2 →
      p.token_cache.get token = (some k, cache') →
      k ≠ c2.app_key →
      JWTAuthProvider.identify_client toStr dh decode
        (p.update_config (.ClientUpdate c2)) head sid =
        some ⟨.error .InvalidToken, cache', 0⟩ := by
  refine ⟨?_, ?_, ?_, ?_⟩
  · intro client sla cache' hc hs hget
    rw [identify_client_eq toStr dh decode p head sid token cid client sla
      ht hk hc hs, hget]
    simp
  · intro client sla k cache' hc hs hget hne
    rw [identify_client_eq toStr dh decode p head sid token cid client sla
      ht hk hc hs, hget]
    simp [hne]
  · intro client sla cache' hc hs hget hver
    refine ⟨?_, fun hcap => lookupA_put_self cache' token client.app_key hcap⟩
    rw [identify_client_eq toStr dh decode p head sid token cid client sla
      ht hk hc hs, hget]
    simp [hver]
  · intro c2 sla2 k cache' hcid hs2 hget hne
    have hc2 : lookupA cid (p.update_config (.ClientUpdate c2)).apps =
        some c2 := by
      simp only [JWTAuthProvider.update_config]
      rw [← hcid]
      exact lookupA_insertA_self c2.client_id c2 p.apps
    rw [identify_client_eq toStr dh decode _ head sid token cid c2 sla2
      ht hk hc2 hs2,
      show (p.update_config (.ClientUpdate c2)).token_cache = p.token_cache
        from rfl, hget]
    simp [hne]

/-- Witness for C3: with token `a.b.c` cached against `K1`, the cached
call accepts `client1` without verification; after rotating
`client1`'s `app_key` to `K2`, the same token is rejected with
`InvalidToken`. -/
theorem c3_witness :
    JWTAuthProvider.identify_client asciiToStr dhModel decodeOk pCachedW
      headW "svc1" =
      some ⟨.ok (headW, ⟨"client1", ⟨"gold"⟩⟩),
        ⟨1024, [("a.b.c", "K1")]⟩, 0⟩ ∧
    JWTAuthProvider.identify_client asciiToStr dhModel decodeOk
      (pCachedW.update_config (.ClientUpdate clientW2)) headW "svc1" =
      some ⟨.error .InvalidToken, ⟨1024, [("a.b.c", "K1")]⟩, 0⟩ :=
  ⟨(c3_cache_decides_and_rotation_invalidates asciiToStr dhModel decodeOk
      pCachedW headW "svc1" "a.b.c" "client1" rfl rfl).1
      clientW ⟨"gold"⟩ ⟨1024, [("a.b.c", "K1")]⟩ rfl rfl rfl,
   (c3_cache_decides_and_rotation_invalidates asciiToStr dhModel decodeOk
      pCachedW headW "svc1" "a.b.c" "client1" rfl rfl).2.2.2
      clientW2 ⟨"gold"⟩ "K1" ⟨1024, [("a.b.c", "K1")]⟩ rfl rfl rfl
      (by decide)⟩

/-- C2: evaluating `identify_client` at the failing input.  A missing
`Authorization` header does yield `TokenNotFound`, but a header with
only one whitespace-separated segment yields the empty token
(`segs.get(1).unwrap_or(&"")`), and `decode_header("").unwrap()` then
panics (`none`) instead of returning `InvalidToken` as the spec
requires. -/
theorem c2_one_segment_header_panics :
    JWTAuthProvider.identify_client asciiToStr dhModel decodeOk
      JWTAuthProvider.new ⟨none⟩ "svc1" =
      some ⟨.error .TokenNotFound, JWTAuthProvider.new.token_cache, 0⟩ ∧
    JWTAuthProvider.extract_token asciiToStr ⟨some (strBytes "sometoken")⟩ =
      some (.ok "") ∧
    JWTAuthProvider.identify_client asciiToStr dhModel decodeOk
      JWTAuthProvider.new ⟨some (strBytes "sometoken")⟩ "svc1" = none :=
  ⟨rfl, rfl, rfl⟩

/-- C9: `identify_client` is not total on its public input: it panics
(`none`) when the `Authorization` header value is not convertible to a
string (`token.to_str().unwrap()`), and when the extracted token — the
second whitespace-separated segment, which is the empty string for a
one-segment header — is not accepted by `decode_header`
(`decode_header(token).unwrap()`). -/
theorem c9_identify_client_panics (toStr : List Nat → Option String)
    (dh : String → Option JwtHeader)
    (decode : String → String → Except JwtErrorKind Unit)
    (p : JWTAuthProvider) (sid : String) (v : List Nat) :
    (toStr v = none →
      JWTAuthProvider.identify_client toStr dh decode p ⟨some v⟩ sid =
        none) ∧
    ∀ s : String, toStr v = some s →
      dh (String.mk ((splitChar ' ' s.toList).getD 1 [])) = none →
      JWTAuthProvider.identify_client toStr dh decode p ⟨some v⟩ sid =
        none := by
  constructor
  · intro h
    simp [JWTAuthProvider.identify_client, JWTAuthProvider.extract_token, h]
  · intro s hs hdh
    simp only [JWTAuthProvider.identify_client,
      JWTAuthProvider.extract_token, JWTAuthProvider.extract_kid, hs, hdh]

/-- Witness for C9: a non-ASCII header byte makes the conversion panic,
and the one-segment header `Authorization: Bearer` produces the empty
token on which header decoding panics. -/
theorem c9_witness :
    JWTAuthProvider.identify_client asciiToStr dhModel decodeOk pW
      ⟨some [128]⟩ "svc1" = none ∧
    JWTAuthProvider.identify_client asciiToStr dhModel decodeOk pW
      ⟨some (strBytes "Bearer")⟩ "svc1" = none :=
  ⟨(c9_identify_client_panics asciiToStr dhModel decodeOk pW "svc1"
      [128]).1 rfl,
   (c9_identify_client_panics asciiToStr dhModel decodeOk pW "svc1"
      (strBytes "Bearer")).2 "Bearer" rfl rfl⟩

/-- C4: the in-flight gauge is NOT balanced for every call that leaves
the dispatcher.  Evaluating `ProxyHandler::call` at the failing input —
the upstream future resolving to a transport error before the timeout —
shows one increment and zero decrements of the
`(service, upstream, version)` gauge: the `?` in the select arm
`Ok(resp?)` returns from the async block before the decrement runs.
The decrement does balance on the success and timeout outcomes. -/
theorem c4_gauge_leak_on_transport_error :
    ProxyHandler.countInc ("svc1", "u1", "v1")
      ((hProxyW.call reqW (.UpstreamFirst (.error "connection reset"))).events)
      = 1 ∧
    ProxyHandler.countDec ("svc1", "u1", "v1")
      ((hProxyW.call reqW (.UpstreamFirst (.error "connection reset"))).events)
      = 0 ∧
    (hProxyW.call reqW (.UpstreamFirst (.ok respW))).events =
      [.inc ("svc1", "u1", "v1"), .dec ("svc1", "u1", "v1")] ∧
    (hProxyW.call reqW .SleepFirst).events =
      [.inc ("svc1", "u1", "v1"), .dec ("svc1", "u1", "v1")] :=
  ⟨rfl, rfl, rfl, rfl⟩

/-- C5: every upstream call races the response future against the
timeout sleep.  If the sleep fires first the call returns
`TimeoutError` (the pending upstream future is dropped by the select —
`SleepFirst` carries no response); otherwise the upstream response is
returned (with the upstream id/version headers appended).  The handler
timeout is the per-service `conf.timeout` passed to
`ProxyHandler::new`. -/
theorem c5_timeout_race :
    ∀ (h : ProxyHandler) (req : Request) (r : Response),
      (h.call req .SleepFirst).result = .error (.gw .TimeoutError) ∧
      (h.call req (.UpstreamFirst (.ok r))).result =
        .ok { r with headers := r.headers ++
          [("X-UPSTREAM-ID", h.upstream_id),
           ("X-UPSTREAM-VERSION", h.version)] } ∧
      (∀ (sid : String) (u : Upstream) (t : Nat),
        (ProxyHandler.new sid u t).timeout = t) :=
  fun _ _ _ => ⟨rfl, rfl, fun _ _ _ => rfl⟩

/-- C6: a `ServiceUpdate` whose upstream list is empty is rejected: no
worker-spawn effect is produced and the dispatch table holds no sender
for that service id afterwards; `build_service` on such a config is
the `panic!("Invalid upstream config")`. -/
theorem c6_empty_upstreams_rejected :
    ∀ (m : UpstreamMiddleware) (sid lb : String) (t : Nat),
      (m.config_update (.ServiceUpdate ⟨sid, t, lb, []⟩)).2 = [] ∧
      lookupA sid
        ((m.config_update (.ServiceUpdate ⟨sid, t, lb, []⟩)).1).worker_queues
        = none ∧
      build_service ⟨sid, t, lb, []⟩ = none := by
  intro m sid lb t
  refine ⟨rfl, ?_, rfl⟩
  simp [UpstreamMiddleware.config_update, lookupA_removeA_self]

/-- C7: with `load_balance = "hash"` and `N > 1` upstreams, the built
stack is the hash steer over the upstreams in configuration order, the
steer routes to index `hash(b) mod N` where `b` is the `x-lb-hash`
value (bytes of `"empty"` when absent), the index is always in range,
and two requests with the same `x-lb-hash` value route to the same
upstream. -/
theorem c7_hash_steer :
    ∀ (sid : String) (t : Nat) (u1 u2 : Upstream) (us : List Upstream)
      (hashBytes : List Nat → Nat) (req : Request),
      build_service ⟨sid, t, "hash", u1 :: u2 :: us⟩ =
        some (.hashSteer (u1 :: u2 :: us)) ∧
      steerRoute hashBytes (u1 :: u2 :: us) req =
        (u1 :: u2 :: us)[hashBytes
          ((lookupA "x-lb-hash" req.headers).getD emptyHashBytes) %
          (us.length + 2)]? ∧
      steerIndex hashBytes req (u1 :: u2 :: us).length < us.length + 2 ∧
      (steerRoute hashBytes (u1 :: u2 :: us) req).isSome = true ∧
      ∀ req' : Request,
        lookupA "x-lb-hash" req'.headers = lookupA "x-lb-hash" req.headers →
        steerRoute hashBytes (u1 :: u2 :: us) req' =
          steerRoute hashBytes (u1 :: u2 :: us) req := by
  intro sid t u1 u2 us hashBytes req
  have hlt : steerIndex hashBytes req (u1 :: u2 :: us).length <
      us.length + 2 := by
    simp only [steerIndex, List.length_cons]
    exact Nat.mod_lt _ (by omega)
  refine ⟨rfl, by simp [steerRoute, steerIndex], hlt, ?_, ?_⟩
  · simp only [steerRoute]
    rw [List.getElem?_eq_getElem (by simpa using hlt)]
    rfl
  · intro req' hh
    simp [steerRoute, steerIndex, hh]

/-- Witness for C7: the hash steer routes a concrete headerless request
the same way as another request with the same (absent) `x-lb-hash`
value, and the concrete `"hash"` config builds the steer stack. -/
theorem c7_hash_steer_witness :
    build_service ⟨"svc1", 5, "hash", [uW, uW, uW]⟩ =
      some (.hashSteer [uW, uW, uW]) ∧
    steerRoute (fun b => b.length) [uW, uW, uW] ⟨none, []⟩ =
      steerRoute (fun b => b.length) [uW, uW, uW] reqW :=
  ⟨(c7_hash_steer "svc1" 5 uW uW [uW] (fun b => b.length) reqW).1,
   (c7_hash_steer "svc1" 5 uW uW [uW] (fun b => b.length) reqW).2.2.2.2
     ⟨none, []⟩ rfl⟩

/-- Inversion of a successful `identify_client` call: every lookup on
the way succeeded, at most one cryptographic verification ran, and the
resulting cache holds `(token → app_key)` as its most-recently-used
entry with no stale binding of the token behind it. -/
theorem identify_client_ok_inv (toStr : List Nat → Option String)
    (dh : String → Option JwtHeader)
    (decode : String → String → Except JwtErrorKind Unit)
    (p : JWTAuthProvider) (head : Parts) (sid : String)
    (o : JWTAuthProvider.IdentifyOutcome) (head' : Parts)
    (ar : AuthResult) (hcap : 1 ≤ p.token_cache.cap)
    (h1 : JWTAuthProvider.identify_client toStr dh decode p head sid =
      some o)
    (hok : o.result = .ok (head', ar)) :
    ∃ token cid client sla rest,
      JWTAuthProvider.extract_token toStr head = some (.ok token) ∧
      JWTAuthProvider.extract_kid dh token = some (.ok cid) ∧
      lookupA cid p.apps = some client ∧
      lookupA sid client.services = some sla ∧
      head' = head ∧ ar = ⟨client.client_id, sla⟩ ∧
      o.verifies ≤ 1 ∧
      o.cache.cap = p.token_cache.cap ∧
      o.cache.entries = (token, client.app_key) :: rest ∧
      removeA token rest = rest := by
  unfold JWTAuthProvider.identify_client at h1
  split at h1
  · exact absurd h1 (by simp)
  · injection h1 with h1
    rw [← h1] at hok
    simp at hok
  next token hE =>
    split at h1
    · exact absurd h1 (by simp)
    · injection h1 with h1
      rw [← h1] at hok
      simp at hok
    next cid hK =>
      split at h1
      next hC =>
        injection h1 with h1
        rw [← h1] at hok
        simp at hok
      next client hC =>
        split at h1
        next hS =>
          injection h1 with h1
          rw [← h1] at hok
          simp at hok
        next sla hS =>
          split at h1
          next cached cache' hG =>
            -- cache hit
            have hG' := hG
            unfold LruCache.get at hG'
            split at hG'
            next v hL =>
              rw [Prod.mk.injEq] at hG'
              obtain ⟨hv, hcache⟩ := hG'
              injection hv with hv
              split at h1
              next hif =>
                injection h1 with h1
                subst h1
                simp only [JWTAuthProvider.IdentifyOutcome.result] at hok
                injection hok with hok
                obtain ⟨rfl, rfl⟩ := Prod.mk.injEq .. |>.mp hok.symm
                refine ⟨token, cid, client, sla,
                  removeA token p.token_cache.entries,
                  hE, hK, hC, hS, rfl, rfl, by simp, ?_, ?_, ?_⟩
                · rw [← hcache]
                · rw [← hcache]
                  simp [hv, hif]
                · exact removeA_idem token p.token_cache.entries
              next hif =>
                injection h1 with h1
                rw [← h1] at hok
                simp at hok
            next hL =>
              simp at hG'
          next cache' hG =>
            -- cache miss: verify then insert
            have hG' := hG
            unfold LruCache.get at hG'
            split at hG'
            next v hL =>
              simp at hG'
            next hL =>
              rw [Prod.mk.injEq] at hG'
              obtain ⟨-, hcache⟩ := hG'
              split at h1
              next e hV =>
                injection h1 with h1
                rw [← h1] at hok
                simp at hok
              next u hV =>
                injection h1 with h1
                subst h1
                simp only [JWTAuthProvider.IdentifyOutcome.result] at hok
                injection hok with hok
                obtain ⟨rfl, rfl⟩ := Prod.mk.injEq .. |>.mp hok.symm
                obtain ⟨n, hn⟩ : ∃ n, p.token_cache.cap = n + 1 :=
                  ⟨p.token_cache.cap - 1, by omega⟩
                refine ⟨token, cid, client, sla,
                  (removeA token p.token_cache.entries).take n,
                  hE, hK, hC, hS, rfl, rfl, by simp, ?_, ?_, ?_⟩
                · simp [LruCache.put, ← hcache]
                · simp only [JWTAuthProvider.IdentifyOutcome.cache,
                    LruCache.put, ← hcache, hn, List.take_succ_cons]
                · exact removeA_take token p.token_cache.entries n

/-- C8: repeated `identify_client` calls with the same token and the
same client record: a successful call performs at most one
cryptographic verification, and every subsequent call from the
resulting cache state returns the identical `AuthResult`, performs
zero verifications, and leaves the cache unchanged — so all later
repeats are served from the cache as long as the entry survives. -/
theorem c8_repeat_verification_idempotent
    (toStr : List Nat → Option String) (dh : String → Option JwtHeader)
    (decode : String → String → Except JwtErrorKind Unit)
    (p : JWTAuthProvider) (head : Parts) (sid : String)
    (o : JWTAuthProvider.IdentifyOutcome) (head' : Parts)
    (ar : AuthResult) (hcap : 1 ≤ p.token_cache.cap)
    (h1 : JWTAuthProvider.identify_client toStr dh decode p head sid =
      some o)
    (hok : o.result = .ok (head', ar)) :
    o.verifies ≤ 1 ∧
    JWTAuthProvider.identify_client toStr dh decode
      { p with token_cache := o.cache } head sid =
      some ⟨.ok (head', ar), o.cache, 0⟩ := by
  obtain ⟨token, cid, client, sla, rest, hE, hK, hC, hS, hh, har, hv,
    hcapEq, hent, hrest⟩ :=
    identify_client_ok_inv toStr dh decode p head sid o head' ar hcap h1 hok
  subst hh
  subst har
  refine ⟨hv, ?_⟩
  have hget : o.cache.get token = (some client.app_key, o.cache) :=
    LruCache.get_front' o.cache token client.app_key rest hent hrest
  rw [identify_client_eq toStr dh decode { p with token_cache := o.cache }
    head' sid token cid client sla hE hK hC hS,
    show ({ p with token_cache := o.cache } : JWTAuthProvider).token_cache
      = o.cache from rfl, hget]
  simp

/-- Witness for C8: the first call on an empty cache verifies once and
caches `(a.b.c → K1)`; the call from the resulting state returns the
same `AuthResult` with zero verifications and the cache unchanged. -/
theorem c8_witness :
    ((⟨.ok (headW, ⟨"client1", ⟨"gold"⟩⟩), ⟨1024, [("a.b.c", "K1")]⟩, 1⟩ :
        JWTAuthProvider.IdentifyOutcome).verifies ≤ 1) ∧
    JWTAuthProvider.identify_client asciiToStr dhModel decodeOk
      { pW with token_cache := ⟨1024, [("a.b.c", "K1")]⟩ } headW "svc1" =
      some ⟨.ok (headW, ⟨"client1", ⟨"gold"⟩⟩),
        ⟨1024, [("a.b.c", "K1")]⟩, 0⟩ :=
  c8_repeat_verification_idempotent asciiToStr dhModel decodeOk pW headW
    "svc1" ⟨.ok (headW, ⟨"client1", ⟨"gold"⟩⟩), ⟨1024, [("a.b.c", "K1")]⟩, 1⟩
    headW ⟨"client1", ⟨"gold"⟩⟩ (by norm_num [pW]) rfl rfl

/-- C10: a `ServiceUpdate` with an empty upstream list removes any
existing dispatch-table entry for its service id, so a subsequent
request for that service fails with `ServiceNotFound`; and every
`config_update` leaves the entries of all other service ids
unchanged. -/
theorem c10_empty_update_removes_entry_and_frames_others :
    (∀ (m : UpstreamMiddleware) (sid lb : String) (t : Nat),
      lookupA sid
        ((m.config_update (.ServiceUpdate ⟨sid, t, lb, []⟩)).1).worker_queues
        = none ∧
      ((m.config_update (.ServiceUpdate ⟨sid, t, lb, []⟩)).1).request sid =
        .Fail (.ServiceNotFound "Invalid Service ID")) ∧
    ∀ (m : UpstreamMiddleware) (u : ConfigUpdate) (sid' : String),
      (∀ conf, u = .ServiceUpdate conf → sid' ≠ conf.service_id) →
      (∀ s, u = .ServiceRemove s → sid' ≠ s) →
      lookupA sid' ((m.config_update u).1).worker_queues =
        lookupA sid' m.worker_queues := by
  constructor
  · intro m sid lb t
    constructor
    · simp [UpstreamMiddleware.config_update, lookupA_removeA_self]
    · simp [UpstreamMiddleware.config_update, UpstreamMiddleware.request,
        lookupA_removeA_self]
  · intro m u sid' h1 h2
    cases u with
    | ClientUpdate c => rfl
    | ClientRemove cid => rfl
    | ServiceUpdate conf =>
        have hne : sid' ≠ conf.service_id := h1 conf rfl
        by_cases hlen : conf.upstreams.length > 0
        · simp [UpstreamMiddleware.config_update, hlen,
            lookupA_insertA_ne _ _ _ _ hne]
        · simp [UpstreamMiddleware.config_update, hlen,
            lookupA_removeA_ne _ _ _ hne]
    | ServiceRemove s =>
        have hne : sid' ≠ s := h2 s rfl
        simp [UpstreamMiddleware.config_update,
          lookupA_removeA_ne _ _ _ hne]

/-- Witness for C10: an (empty-upstream) update removes the concrete
entry, and an unrelated `ClientUpdate` leaves the concrete table
untouched. -/
theorem c10_witness :
    (lookupA "svc1"
      ((mW.config_update (.ServiceUpdate ⟨"svc1", 5, "weight", []⟩)).1).worker_queues
      = none ∧
     ((mW.config_update (.ServiceUpdate ⟨"svc1", 5, "weight", []⟩)).1).request "svc1" =
       .Fail (.ServiceNotFound "Invalid Service ID")) ∧
    lookupA "svc1" ((mW.config_update (.ClientUpdate clientW)).1).worker_queues =
      lookupA "svc1" mW.worker_queues :=
  ⟨c10_empty_update_removes_entry_and_frames_others.1 mW "svc1" "weight" 5,
   c10_empty_update_removes_entry_and_frames_others.2 mW
     (.ClientUpdate clientW) "svc1" (fun _ h => nomatch h) (fun _ h => nomatch h)⟩

end HyperApi
